import Mathlib

/-!
Verification development for the `orchestrator` reverse proxy.

The Python source is shallowly embedded: pure helper functions become Lean
functions on `String`/`List`; the gateway retry loop becomes a fuelled
recursive function over an explicit state; fallible operations return
`Except String _` (the error carrying the Python exception message);
external effects (filesystem content, JSON parsing of arbitrary text,
upstream HTTP responses, token refresh, the database) are inputs supplied
by an environment.

Python strings are modelled through their character lists so that the
string operations used by the source (`split`, `strip`, `lower`,
substring membership) have directly reasoned-about recursive definitions.
-/

namespace Orchestrator

/-! ## Python string primitives -/

/-- Python `sub in s` (substring membership), on character lists. -/
def listContainsSub (pat : List Char) : List Char → Bool
  | [] => pat.isEmpty
  | c :: cs => pat.isPrefixOf (c :: cs) || listContainsSub pat cs

/-- Python `sub in s` on strings. -/
def pyContains (s pat : String) : Bool :=
  listContainsSub pat.data s.data

/-- Python `s.split(sep)` for a one-character separator, on character lists.
Always returns a non-empty list of pieces. -/
def splitChar (sep : Char) : List Char → List (List Char)
  | [] => [[]]
  | c :: cs =>
    if c = sep then [] :: splitChar sep cs
    else
      match splitChar sep cs with
      | t :: ts => (c :: t) :: ts
      | [] => [[c]]

/-- Python `s.split(sep)` for a one-character separator, on strings. -/
def pySplit (s : String) (sep : Char) : List String :=
  (splitChar sep s.data).map (fun l => ⟨l⟩)

/-- Characters stripped by Python `str.strip()` (ASCII whitespace). -/
def pySpace (c : Char) : Bool :=
  c = ' ' || c = '\t' || c = '\n' || c = '\r' || c = '\x0b' || c = '\x0c'

/-- Python `s.strip()`. -/
def pyStrip (s : String) : String :=
  ⟨((s.data.dropWhile pySpace).reverse.dropWhile pySpace).reverse⟩

/-- Python `s.lower()` (ASCII case folding suffices for header names). -/
def pyLower (s : String) : String :=
  ⟨s.data.map Char.toLower⟩

/-- Python `s.split(sep)[0]` for a one-character separator: the prefix before
the first occurrence of `sep`. -/
def beforeChar (s : String) (sep : Char) : String :=
  ⟨((splitChar sep s.data).headD [])⟩

/-- Python `s.split(sep, 1)[1]` for a one-character separator: everything
after the first occurrence of `sep` (meaningful when `sep` occurs). -/
def afterChar (s : String) (sep : Char) : String :=
  ⟨(s.data.dropWhile (· ≠ sep)).drop 1⟩

/-- Python `s[-4:]`. -/
def pyLast4 (s : String) : String :=
  ⟨s.data.drop (s.data.length - 4)⟩

/-- Python `s.startswith(pre)`, via character lists. -/
def strStartsWith (s pre : String) : Bool :=
  pre.data.isPrefixOf s.data

/-- `s[n:]` on strings, via character lists. -/
def strDrop (s : String) (n : Nat) : String :=
  ⟨s.data.drop n⟩

/-- Longest prefix of `s` whose characters satisfy `p`, via character lists. -/
def strTakeWhile (s : String) (p : Char → Bool) : String :=
  ⟨s.data.takeWhile p⟩

/-! ## Python dicts as association lists -/

/-- `d.get(k)` / `d[k]` lookup on an insertion-ordered dict. -/
def dictLookup {α : Type} : List (String × α) → String → Option α
  | [], _ => none
  | kv :: rest, k => if kv.1 == k then some kv.2 else dictLookup rest k

/-- `d[k] = v` on an insertion-ordered dict: overwrite in place, else append. -/
def dictInsert {α : Type} (d : List (String × α)) (k : String) (v : α) :
    List (String × α) :=
  if d.any (fun kv => kv.1 == k) then
    d.map (fun kv => if kv.1 == k then (k, v) else kv)
  else d ++ [(k, v)]

/-! ## JSON values

Model of the Python objects produced by `json.loads`. Numbers are modelled
as integers: the source only ever forwards numeric fields opaquely or tests
truthiness, so fractional values add nothing. -/

inductive Json where
  | null : Json
  | bool : Bool → Json
  | num : Int → Json
  | str : String → Json
  | arr : List Json → Json
  | obj : List (String × Json) → Json
deriving Inhabited

/-- Python truthiness of a JSON value. -/
def jsonTruthy : Json → Bool
  | .null => false
  | .bool b => b
  | .num n => n != 0
  | .str s => !s.isEmpty
  | .arr l => !l.isEmpty
  | .obj l => !l.isEmpty

/-- `data.get(k)` on a parsed JSON object's fields. -/
def jsonGet (fields : List (String × Json)) (k : String) : Option Json :=
  dictLookup fields k

namespace Proxy

/-! ## `app/api/proxy.py` — pure helpers -/

/-- `_extract_action`: walk `path.split("/")` from the right; the first
component containing `":"` yields everything after its first `":"`. -/
def extractAction (path : String) : Option String :=
  ((pySplit path '/').reverse.find? (fun p => pyContains p ":")).map
    (fun p => afterChar p ':')

/-- First `"models"` component of the split path followed by a successor:
Python's `parts.index("models") + 1` access guarded by `"models" in parts`
and `idx < len(parts)`. -/
def modelAfter : List String → Option String
  | [] => none
  | p :: ps => if p = "models" then ps.head? else modelAfter ps

/-- `_extract_model`: the component after the first `"models"` component,
truncated at the first `":"` only when `is_gemini`; `"unknown"` otherwise. -/
def extractModel (path : String) (isGemini : Bool) : String :=
  match modelAfter (pySplit path '/') with
  | some comp => if isGemini then beforeChar comp ':' else comp
  | none => "unknown"

/-- Result of `_parse_usage_metadata`: the three nullable token counts. -/
structure Usage where
  prompt_tokens : Option Json
  candidates_tokens : Option Json
  total_tokens : Option Json
deriving Inhabited

def Usage.nulls : Usage := ⟨none, none, none⟩

/-- The `if usage:` tail of `_parse_usage_metadata`: read the three counts
out of a truthy dict; a truthy non-dict raises `AttributeError` on the
first `.get`, which the enclosing `except Exception` swallows before any
count was assigned. -/
def extractCounts (usage : Option Json) : Usage :=
  match usage with
  | none => Usage.nulls
  | some u =>
    if jsonTruthy u then
      match u with
      | .obj fs =>
        ⟨jsonGet fs "promptTokenCount", jsonGet fs "candidatesTokenCount",
         jsonGet fs "totalTokenCount"⟩
      | _ => Usage.nulls
    else Usage.nulls

/-- The `reversed(data)` scan: first element from the right that is a dict
containing `"usageMetadata"` supplies the value. -/
def findUsageRev (items : List Json) : Option Json :=
  match items.reverse.find?
      (fun it => match it with
        | .obj fs => (jsonGet fs "usageMetadata").isSome
        | _ => false) with
  | some (.obj fs) => jsonGet fs "usageMetadata"
  | _ => none

/-- `_parse_usage_metadata`, over an abstract `json.loads` (`parse`).
The body has already been decoded with `errors="replace"`, which never
fails, so the input is the decoded text. The `except JSONDecodeError`
fallback re-parses the same text and therefore fails again; it is kept for
faithfulness. -/
def parseUsageMetadata (parse : String → Option Json) (text : String) : Usage :=
  match parse text with
  | some data =>
    let usage : Option Json :=
      match data with
      | .obj fs => jsonGet fs "usageMetadata"
      | .arr items => if items.isEmpty then none else findUsageRev items
      | _ => none
    extractCounts usage
  | none =>
    -- fallback branch: `if text.strip().startswith("["): items = json.loads(text)`
    let data : Option Json :=
      if strStartsWith (pyStrip text) "[" then
        match parse text with
        | some (.arr items) => if items.isEmpty then none else items.getLast?
        | _ => none
      else none
    match data with
    | none => Usage.nulls
    | some d =>
      let usage : Option Json :=
        match d with
        | .obj fs => jsonGet fs "usageMetadata"
        | .arr items => if items.isEmpty then none else findUsageRev items
        | _ => none
      extractCounts usage

/-- `_safe_parse_json`, over the abstract parser. -/
def safeParseJson (parse : String → Option Json) (body : String) : Option Json :=
  parse body

/-- `_check_ip_access`: `True` means the 403 `HTTPException` is raised. -/
def checkIpAccessDenied (allowed : List String) (clientIp : String) : Bool :=
  !allowed.isEmpty && !(allowed == ["*"]) && !(allowed.contains clientIp)

end Proxy

/-! ## `app/services/rotators/gemini.py` — `GeminiRotator` -/

/-- State of a `GeminiRotator`: the key pool and the rotation cursor. -/
structure GeminiRotator where
  keys : List String
  currentIndex : Nat

/-- `get_next_key`: `None` on an empty pool, otherwise `keys[_current_index]`
with the cursor advanced modulo the pool size. An out-of-range cursor (left
behind by a shrinking reload) raises `IndexError` before the cursor moves. -/
def GeminiRotator.getNextKey (s : GeminiRotator) :
    Except String (Option String) × GeminiRotator :=
  if s.keys.isEmpty then (.ok none, s)
  else
    match s.keys.get? s.currentIndex with
    | some k =>
      (.ok (some k), { s with currentIndex := (s.currentIndex + 1) % s.keys.length })
    | none => (.error "IndexError: list index out of range", s)

/-- Outcome of opening and JSON-decoding the Gemini keys file. -/
inductive FileReadResult where
  | missing : FileReadResult
  | content : Json → FileReadResult
  | ioError : FileReadResult

/-- `load_keys`. `decrypt` is the external `encryption_manager.decrypt_data`
(`none` = the decryption of that element raised and the element is skipped).
A missing file empties the pool; a decode/format error leaves `_keys`
untouched; `_current_index` is never written. -/
def GeminiRotator.loadKeys (file : FileReadResult) (decrypt : Json → Option String)
    (s : GeminiRotator) : GeminiRotator :=
  match file with
  | .missing => { s with keys := [] }
  | .ioError => s
  | .content data =>
    match data with
    | .obj fs =>
      match jsonGet fs "encrypted_keys" with
      | some (.arr entries) => { s with keys := entries.filterMap decrypt }
      | some _ => s
      | none => s
    | .arr items =>
      { s with keys := items.filterMap (fun j =>
          match j with
          | .str k => if pyStrip k = "" then none else some k
          | _ => none) }
    | _ => s

/-- `reload` just calls `load_keys`. -/
def GeminiRotator.reload (file : FileReadResult) (decrypt : Json → Option String)
    (s : GeminiRotator) : GeminiRotator :=
  s.loadKeys file decrypt

/-! ## `app/services/rotators/vertex.py` — `VertexRotator` -/

/-- A loaded Vertex credential; the opaque signing material is not modelled
(tokens are produced by the environment), `project_id` and the source path
are. -/
structure VertexCredential where
  projectId : String
  jsonPath : String

/-- State of a `VertexRotator`. -/
structure VertexRotator where
  pool : List VertexCredential
  currentIndex : Nat

/-- `get_next_credential`: raises `RuntimeError` on an empty pool (it does
NOT return a falsy value), otherwise round-robin like the Gemini rotator. -/
def VertexRotator.getNextCredential (s : VertexRotator) :
    Except String VertexCredential × VertexRotator :=
  if s.pool.isEmpty then (.error "Vertex Credential pool is empty", s)
  else
    match s.pool.get? s.currentIndex with
    | some c =>
      (.ok c, { s with currentIndex := (s.currentIndex + 1) % s.pool.length })
    | none => (.error "IndexError: list index out of range", s)

/-- One candidate file in the Vertex credentials directory: its path and the
result of `json.load` (`loadError` = open/decode raised). -/
inductive VertexFile where
  | parsed : String → Json → VertexFile
  | loadError : String → VertexFile

def VertexFile.path : VertexFile → String
  | .parsed p _ => p
  | .loadError p => p

/-- One iteration of the `load_credentials` loop: skip files that fail to
load, lack `private_key`/`project_id`, or whose `project_id` is not a string
(`from_service_account_info` then raises and the file is skipped). -/
def credOfFile : VertexFile → Option VertexCredential
  | .loadError _ => none
  | .parsed p (.obj fs) =>
    if (jsonGet fs "private_key").isSome && (jsonGet fs "project_id").isSome then
      match jsonGet fs "project_id" with
      | some (.str pid) => some ⟨pid, p⟩
      | _ => none
    else none
  | .parsed _ _ => none

/-- `load_credentials`: glob results with `gemini_keys` paths excluded; an
empty file list returns early leaving the old pool; otherwise the pool is
replaced. `_current_index` is never written. -/
def VertexRotator.loadCredentials (files : List VertexFile) (s : VertexRotator) :
    VertexRotator :=
  let files := files.filter (fun f => !(pyContains f.path "gemini_keys"))
  if files.isEmpty then s
  else { s with pool := files.filterMap credOfFile }

/-- `reload` just calls `load_credentials`. -/
def VertexRotator.reload (files : List VertexFile) (s : VertexRotator) : VertexRotator :=
  s.loadCredentials files

/-! ## Rotation traces (for the fairness property) -/

/-- The ideal round-robin index trace: `K` selections starting at cursor `i`
over a pool of `M` slots. -/
def modTrace : Nat → Nat → Nat → List Nat
  | _, _, 0 => []
  | i, M, Nat.succ k => i :: modTrace ((i + 1) % M) M k

/-- The pool slots read by `K` consecutive `get_next_key` calls. -/
def GeminiRotator.chosenSlots : GeminiRotator → Nat → List Nat
  | _, 0 => []
  | s, Nat.succ k => s.currentIndex :: GeminiRotator.chosenSlots (s.getNextKey).2 k

/-- The pool slots read by `K` consecutive `get_next_credential` calls. -/
def VertexRotator.chosenSlots : VertexRotator → Nat → List Nat
  | _, 0 => []
  | s, Nat.succ k => s.currentIndex :: VertexRotator.chosenSlots (s.getNextCredential).2 k

/-! ## `rotator.py` + `main.py` — the legacy Vertex-only orchestrator
with the LRO affinity cache -/

namespace Legacy

/-- `CredentialRotator` state: the shuffled pool, the `project_id → credential`
map built at load time, and the rotation cursor. -/
structure CredentialRotator where
  pool : List VertexCredential
  poolMap : List (String × VertexCredential)
  currentIndex : Nat

/-- `get_next_credential` (raises `RuntimeError` on an empty pool). -/
def CredentialRotator.getNextCredential (s : CredentialRotator) :
    Except String VertexCredential × CredentialRotator :=
  if s.pool.isEmpty then (.error "Credential pool is empty", s)
  else
    match s.pool.get? s.currentIndex with
    | some c =>
      (.ok c, { s with currentIndex := (s.currentIndex + 1) % s.pool.length })
    | none => (.error "IndexError: list index out of range", s)

/-- `get_credential_by_project_id`: direct `_pool_map` lookup. -/
def CredentialRotator.getCredentialByProjectId (s : CredentialRotator)
    (pid : String) : Option VertexCredential :=
  dictLookup s.poolMap pid

/-- The LRO-cache consultation at the top of `proxy_request`: when the path
contains `fetchPredictOperation` and the method is POST, read
`operationName` from the parsed body and look it up in `lro_cache`.
Any parse/attribute error, a falsy name, or a cache miss leaves the target
unset. Non-string keys cannot be produced by an upstream operation name and
are outside the model. -/
def computeTargetProject (lroCache : List (String × String)) (path method : String)
    (bodyParse : Option Json) : Option String :=
  if pyContains path "fetchPredictOperation" && (method == "POST") then
    match bodyParse with
    | some (.obj fs) =>
      match jsonGet fs "operationName" with
      | some (.str x) =>
        if x ≠ "" ∧ (dictLookup lroCache x).isSome then dictLookup lroCache x
        else none
      | _ => none
    | _ => none
  else none

/-- The per-attempt credential choice in `proxy_request`: a cache-named
project that is still in the pool is used directly (round-robin untouched);
a missing project falls back to rotation, as does the no-target case. -/
def selectCredential (target : Option String) (rot : CredentialRotator) :
    Except String VertexCredential × CredentialRotator × Option String :=
  match target with
  | some pid =>
    match rot.getCredentialByProjectId pid with
    | some c => (.ok c, rot, some pid)
    | none =>
      let (r, rot') := rot.getNextCredential
      (r, rot', none)
  | none =>
    let (r, rot') := rot.getNextCredential
    (r, rot', none)

/-- The LRO-cache update after a 200 on a `predictLongRunning` path:
parse the response, read `name`, and when truthy remember it against the
serving credential's project id. Parse errors leave the cache unchanged. -/
def rememberLro (lroCache : List (String × String)) (path : String) (status : Nat)
    (respParse : Option Json) (projectId : String) : List (String × String) :=
  if pyContains path "predictLongRunning" && (status == 200) then
    match respParse with
    | some (.obj fs) =>
      match jsonGet fs "name" with
      | some (.str op) =>
        if jsonTruthy (.str op) then dictInsert lroCache op projectId else lroCache
      | _ => lroCache
    | _ => lroCache
  else lroCache

end Legacy

namespace Proxy

/-! ## `app/api/proxy.py` — the gateway retry loop

`proxy_gateway` is embedded as a fuelled loop over an explicit state.  The
environment supplies, per attempt index, the Vertex token-refresh outcome
and the upstream send outcome.  Wall-clock latency and the 0.5 s retry
sleep are not modelled (they carry no information the claims mention). -/

/-- The client request as seen by `proxy_gateway` (`full_path` is
`request.url.path.lstrip("/")`). -/
structure ClientRequest where
  method : String
  fullPath : String
  headers : List (String × String)
  queryParams : List (String × String)
  body : String

/-- Outcome of one `http_client.send`. -/
inductive UpstreamResult where
  | response : Nat → String → UpstreamResult
  | transportError : String → UpstreamResult

/-- Environment for one attempt: `get_token` outcome (Vertex only) and the
upstream outcome. -/
structure AttemptEnv where
  token : Except String String
  upstream : UpstreamResult

/-- The recognized `ServiceSettings` fields the gateway reads. -/
structure ServiceSettingsModel where
  maxRetries : Nat
  geminiBaseUrl : String
  vertexBaseUrl : String
  storeRequestBodies : Bool

/-- `ServiceSettings.max_retries` default. -/
def defaultMaxRetries : Nat := 10

/-- `_ALLOWED_HEADERS` of `proxy_gateway`. -/
def ALLOWED_HEADERS : List String :=
  ["content-type", "accept", "accept-encoding", "accept-language",
   "user-agent", "x-goog-user-project"]

/-- The header dict built once per request:
`{k: v for k, v in request.headers.items() if k.lower() in _ALLOWED_HEADERS}`. -/
def baseHeaders (reqHeaders : List (String × String)) : List (String × String) :=
  reqHeaders.filter (fun kv => ALLOWED_HEADERS.contains (pyLower kv.1))

/-- `PROJECT_PATH_REGEX.match`: `(v1(?:beta\d+)?/projects/)([^/]+)(/locations.*)`
anchored at the start of the path (URLs contain no newlines, so `.*` runs to
the end). Returns the three groups. -/
def matchProjectPath (path : String) : Option (String × String × String) :=
  let g1rest : Option (String × String) :=
    if strStartsWith path "v1/projects/" then
      some ("v1/projects/", strDrop path 12)
    else if strStartsWith path "v1beta" then
      let afterBeta := strDrop path 6
      let digits := strTakeWhile afterBeta Char.isDigit
      if digits.data.isEmpty then none
      else
        let rest2 := strDrop afterBeta digits.data.length
        if strStartsWith rest2 "/projects/" then
          some ("v1beta" ++ digits ++ "/projects/", strDrop rest2 10)
        else none
    else none
  match g1rest with
  | none => none
  | some (g1, rest) =>
    let g2 := strTakeWhile rest (fun c => !(c == '/'))
    if g2.data.isEmpty then none
    else
      let g3 := strDrop rest g2.data.length
      if strStartsWith g3 "/locations" then some (g1, g2, g3) else none

/-- What `proxy_gateway` hands back to the client. -/
inductive ClientResponse where
  | plain : Nat → String → ClientResponse
  | upstream : Nat → String → Bool → ClientResponse
  | httpError : Nat → String → ClientResponse

/-- The keyword payload of the one `_record_stats` background task scheduled
with the terminal response (latency, client IP and user agent omitted:
wall-clock and connection metadata are environment noise no claim touches). -/
structure AttemptRecord where
  provider : String
  model : String
  keyId : String
  statusCode : Nat
  action : Option String
  httpMethod : String
  urlPath : String
  attemptCount : Nat
  requestBody : String
  responseBody : String
  isError : Bool
  errorDetail : Option String

/-- One upstream request as built by `http_client.build_request`. -/
structure SentRequest where
  method : String
  url : String
  headers : List (String × String)
  params : List (String × String)
  body : String

/-- Mutable locals of the retry loop (`headers` is created once before the
loop and mutated in place by the Vertex branch). -/
structure GatewayState where
  gem : GeminiRotator
  vtx : VertexRotator
  headers : List (String × String)
  finalKeyId : String
  finalError : Option String

/-- Result of one loop iteration: return to the client or continue the
loop; the `Nat` counts the upstream sends of this iteration (0 or 1). -/
inductive StepResult where
  | ret : ClientResponse → Option AttemptRecord → Nat → Option SentRequest →
      GatewayState → StepResult
  | cont : Nat → Option SentRequest → GatewayState → StepResult

/-- The sent request (if any) of a step result. -/
def StepResult.sentOf : StepResult → Option SentRequest
  | .ret _ _ _ sr _ => sr
  | .cont _ sr _ => sr

/-- The post-iteration loop state of a step result. -/
def StepResult.stateOf : StepResult → GatewayState
  | .ret _ _ _ _ st => st
  | .cont _ _ st => st

/-- `status in [429, 403, 503]`. -/
def retryableStatus (status : Nat) : Bool :=
  status == 429 || status == 403 || status == 503

/-- One iteration of the `while attempts < max_retries` body.
`attemptOrdinal` is the already-incremented `attempts`; `aenv` is this
attempt's environment. Exceptions reaching the `except Exception` handler
become `.cont` with `final_error`/`final_key_id` updated; the re-raised
`HTTPException` (http client not ready) becomes an `httpError` return with
no background record. In the Vertex branch `get_next_credential` raises on
an empty pool, so the `if not cred:` 503 response in the source is
unreachable (a dataclass instance is always truthy) and has no image here. -/
def gatewayStep (cfg : ServiceSettingsModel) (req : ClientRequest) (isGemini : Bool)
    (provider model : String) (action : Option String) (isStreaming : Bool)
    (attemptOrdinal : Nat) (aenv : AttemptEnv) (clientReady : Bool)
    (st : GatewayState) : StepResult :=
  if isGemini then
    match st.gem.getNextKey with
    | (.error e, gem') =>
      .cont 0 none { st with gem := gem', finalError := some e, finalKeyId := "unknown" }
    | (.ok apiKey, gem') =>
      -- `if not api_key:` — None or the empty string
      match apiKey with
      | none =>
        .ret (.plain 503 "No Gemini keys available")
          (some { provider := provider, model := model, keyId := "system",
                  statusCode := 503, action := action, httpMethod := req.method,
                  urlPath := req.fullPath, attemptCount := attemptOrdinal,
                  requestBody := req.body,
                  responseBody := "No Gemini keys available", isError := true,
                  errorDetail := some "No Gemini keys available" })
          0 none { st with gem := gem' }
      | some k =>
        if k == "" then
          .ret (.plain 503 "No Gemini keys available")
            (some { provider := provider, model := model, keyId := "system",
                    statusCode := 503, action := action, httpMethod := req.method,
                    urlPath := req.fullPath, attemptCount := attemptOrdinal,
                    requestBody := req.body,
                    responseBody := "No Gemini keys available", isError := true,
                    errorDetail := some "No Gemini keys available" })
            0 none { st with gem := gem' }
        else
          let params := dictInsert req.queryParams "key" k
          let keyId := "..." ++ pyLast4 k
          let st1 := { st with gem := gem', finalKeyId := keyId }
          if clientReady then
            let url := cfg.geminiBaseUrl ++ "/" ++ req.fullPath
            let sentReq : SentRequest :=
              { method := req.method, url := url, headers := st1.headers,
                params := params, body := req.body }
            match aenv.upstream with
            | .transportError e =>
              .cont 1 (some sentReq) { st1 with finalError := some e }
            | .response status rbody =>
              if retryableStatus status then .cont 1 (some sentReq) st1
              else
                .ret (.upstream status rbody isStreaming)
                  (some { provider := provider, model := model, keyId := keyId,
                          statusCode := status, action := action,
                          httpMethod := req.method, urlPath := req.fullPath,
                          attemptCount := attemptOrdinal, requestBody := req.body,
                          responseBody := rbody, isError := decide (400 ≤ status),
                          errorDetail := none })
                  1 (some sentReq) st1
          else .ret (.httpError 503 "Service is not ready") none 0 none st1
  else
    match st.vtx.getNextCredential with
    | (.error e, vtx') =>
      .cont 0 none { st with vtx := vtx', finalError := some e, finalKeyId := "unknown" }
    | (.ok cred, vtx') =>
      match aenv.token with
      | .error e =>
        .cont 0 none { st with vtx := vtx', finalError := some e, finalKeyId := "unknown" }
      | .ok tok =>
        let targetPath :=
          match matchProjectPath req.fullPath with
          | some (g1, _, g3) => g1 ++ cred.projectId ++ g3
          | none => req.fullPath
        let headers' :=
          dictInsert (dictInsert st.headers "Authorization" ("Bearer " ++ tok))
            "X-Goog-User-Project" cred.projectId
        let keyId := cred.projectId
        let st1 := { st with vtx := vtx', headers := headers', finalKeyId := keyId }
        if clientReady then
          let url := cfg.vertexBaseUrl ++ "/" ++ targetPath
          let sentReq : SentRequest :=
            { method := req.method, url := url, headers := headers',
              params := req.queryParams, body := req.body }
          match aenv.upstream with
          | .transportError e =>
            .cont 1 (some sentReq) { st1 with finalError := some e }
          | .response status rbody =>
            if retryableStatus status then .cont 1 (some sentReq) st1
            else
              .ret (.upstream status rbody isStreaming)
                (some { provider := provider, model := model, keyId := keyId,
                        statusCode := status, action := action,
                        httpMethod := req.method, urlPath := req.fullPath,
                        attemptCount := attemptOrdinal, requestBody := req.body,
                        responseBody := rbody, isError := decide (400 ≤ status),
                        errorDetail := none })
                1 (some sentReq) st1
        else .ret (.httpError 503 "Service is not ready") none 0 none st1

/-- Terminal outcome of one whole `proxy_gateway` invocation. -/
structure GatewayOutcome where
  response : ClientResponse
  record : Option AttemptRecord
  upstreamCalls : Nat
  sent : List SentRequest
  attempts : Nat
  finalState : GatewayState

/-- Python's `final_error or error_msg` (`None` and `""` are both falsy). -/
def orElseMsg (e : Option String) (msg : String) : String :=
  match e with
  | some s => if s == "" then msg else s
  | none => msg

/-- The `while attempts < max_retries` loop with `fuel = max_retries −
attempts` and the exhausted-retries epilogue at fuel 0. -/
def gatewayLoop (cfg : ServiceSettingsModel) (req : ClientRequest) (isGemini : Bool)
    (provider model : String) (action : Option String) (isStreaming : Bool)
    (env : Nat → AttemptEnv) (clientReady : Bool) :
    Nat → Nat → Nat → GatewayState → List SentRequest → GatewayOutcome
  | 0, attempts, calls, st, sent =>
    { response := .plain 503 "All backends exhausted or unavailable"
      record := some { provider := provider, model := model, keyId := st.finalKeyId,
                       statusCode := 503, action := action, httpMethod := req.method,
                       urlPath := req.fullPath, attemptCount := attempts,
                       requestBody := req.body,
                       responseBody := "All backends exhausted or unavailable",
                       isError := true,
                       errorDetail := some (orElseMsg st.finalError
                         "All backends exhausted or unavailable") }
      upstreamCalls := calls, sent := sent, attempts := attempts, finalState := st }
  | Nat.succ fuel, attempts, calls, st, sent =>
    match gatewayStep cfg req isGemini provider model action isStreaming
        (attempts + 1) (env attempts) clientReady st with
    | .ret resp rec c sr st' =>
      { response := resp, record := rec, upstreamCalls := calls + c,
        sent := sent ++ sr.toList, attempts := attempts + 1, finalState := st' }
    | .cont c sr st' =>
      gatewayLoop cfg req isGemini provider model action isStreaming env clientReady
        fuel (attempts + 1) (calls + c) st' (sent ++ sr.toList)

/-- The security settings the gateway reads. -/
structure SecurityModel where
  allowedClientIps : List String

/-- `proxy_gateway`, end to end: IP allow-list check (a denial raises the
403 `HTTPException` before anything else), provider classification,
model/action extraction, header allow-list, then the retry loop. -/
def proxyGateway (cfg : ServiceSettingsModel) (sec : SecurityModel)
    (clientIp : String) (req : ClientRequest) (gem : GeminiRotator)
    (vtx : VertexRotator) (clientReady : Bool) (env : Nat → AttemptEnv) :
    GatewayOutcome :=
  let st0 : GatewayState :=
    { gem := gem, vtx := vtx, headers := baseHeaders req.headers,
      finalKeyId := "unknown", finalError := none }
  if checkIpAccessDenied sec.allowedClientIps clientIp then
    { response := .httpError 403 "Access denied: Your IP address is not whitelisted."
      record := none, upstreamCalls := 0, sent := [], attempts := 0, finalState := st0 }
  else
    let isGemini := !(pyContains req.fullPath "projects/")
    let provider := if isGemini then "gemini" else "vertex"
    let model := extractModel req.fullPath isGemini
    let action := extractAction req.fullPath
    let isStreaming := action == some "streamGenerateContent"
    gatewayLoop cfg req isGemini provider model action isStreaming env clientReady
      cfg.maxRetries 0 0 st0 []

end Proxy

namespace Stats

/-! ## `app/services/statistics.py` — `StatsService.record_request` and the
`_record_stats` background task of `proxy.py` -/

/-- Per-call outcomes of the awaited DB operations inside
`record_request`'s `try` block. -/
structure DbEnv where
  resolveApiKey : Except String (Option Nat)
  resolveModel : Except String (Option Nat)
  insert : Except String Unit

/-- The `try` body of `record_request`: resolve the two foreign keys, then
add the row; any step may raise. -/
def recordRequestTry (db : DbEnv) : Except String Unit := do
  let _ ← db.resolveApiKey
  let _ ← db.resolveModel
  db.insert

/-- `record_request`: the whole body is wrapped in
`try ... except Exception: logger.error(...)`, so no failure escapes. -/
def recordRequest (db : DbEnv) : Except String Unit :=
  match recordRequestTry db with
  | .ok _ => .ok ()
  | .error _ => .ok ()

/-- Environment of the telemetry pipeline: whether
`statistics.stats_service` was initialized, the JSON parser, and the DB. -/
structure TelemetryEnv where
  svcPresent : Bool
  parse : String → Option Json
  db : DbEnv

/-- `_record_stats`: return silently when the service is absent, parse the
token counts (total, never raises), optionally parse the bodies for
storage, then call `record_request`. -/
def recordStats (t : TelemetryEnv) (storeBodies : Bool) (rec : Proxy.AttemptRecord) :
    Except String Unit :=
  if !t.svcPresent then .ok ()
  else
    let _tokens :=
      if rec.responseBody == "" then Proxy.Usage.nulls
      else Proxy.parseUsageMetadata t.parse rec.responseBody
    let _reqJson :=
      if storeBodies && !(rec.requestBody == "") then
        Proxy.safeParseJson t.parse rec.requestBody
      else none
    let _respJson :=
      if storeBodies && !(rec.responseBody == "") then
        Proxy.safeParseJson t.parse rec.responseBody
      else none
    recordRequest t.db

/-- One full request: the gateway runs, then its background task (if any)
runs against the telemetry environment. The pair is (client-visible
outcome, telemetry outcome). -/
def handleRequest (cfg : Proxy.ServiceSettingsModel) (sec : Proxy.SecurityModel)
    (clientIp : String) (req : Proxy.ClientRequest) (gem : GeminiRotator)
    (vtx : VertexRotator) (clientReady : Bool) (env : Nat → Proxy.AttemptEnv)
    (t : TelemetryEnv) : Proxy.GatewayOutcome × Except String Unit :=
  let o := Proxy.proxyGateway cfg sec clientIp req gem vtx clientReady env
  (o, match o.record with
      | some r => recordStats t cfg.storeRequestBodies r
      | none => .ok ())

end Stats

namespace Proxy

/-! ## Spec-side predicates used by the claim statements -/

/-- The spec's reading of the streaming scan: walk the array from the last
element backward; the first element that is a dict containing
`usageMetadata` supplies the value. -/
def lastUsageMetadata : List Json → Option Json
  | [] => none
  | it :: rest =>
    match lastUsageMetadata rest with
    | some u => some u
    | none =>
      match it with
      | .obj fs => jsonGet fs "usageMetadata"
      | _ => none

/-- A Gemini pool sound for selection: non-empty, cursor in range, and no
falsy (empty-string) keys. -/
def gemWf (g : GeminiRotator) : Prop :=
  g.keys ≠ [] ∧ g.currentIndex < g.keys.length ∧ ∀ k ∈ g.keys, k ≠ ""

/-- An attempt environment under which the attempt cannot succeed: the
upstream send either raises or answers with a retryable status. -/
def attemptFails (a : AttemptEnv) : Prop :=
  match a.upstream with
  | .transportError _ => True
  | .response s _ => retryableStatus s = true

/-- The headers the spec forbids on a forwarded request. -/
def forbiddenHeaders : List String :=
  ["host", "content-length", "transfer-encoding", "x-goog-api-key"]

/-- The header-hygiene property of one forwarded header pair: key inside
the allow-list ∪ the two auth headers, outside the forbidden set, and any
`authorization` key is the proxy's own `Bearer` token on a Vertex request. -/
def hygienicPair (env : Nat → AttemptEnv) (isGemini : Bool)
    (kv : String × String) : Prop :=
  pyLower kv.1 ∈ ALLOWED_HEADERS ++ ["authorization", "x-goog-user-project"] ∧
  pyLower kv.1 ∉ forbiddenHeaders ∧
  (pyLower kv.1 = "authorization" →
    isGemini = false ∧
    ∃ n tok, (env n).token = .ok tok ∧ kv = ("Authorization", "Bearer " ++ tok))

/-- Invariant on the loop's mutable `headers` dict. -/
def headersOk (env : Nat → AttemptEnv) (isGemini : Bool)
    (hs : List (String × String)) : Prop :=
  ∀ kv ∈ hs,
    (pyLower kv.1 ∈ ALLOWED_HEADERS ∨ kv.1 = "Authorization" ∨
      kv.1 = "X-Goog-User-Project") ∧
    (pyLower kv.1 = "authorization" →
      isGemini = false ∧
      ∃ n tok, (env n).token = .ok tok ∧ kv = ("Authorization", "Bearer " ++ tok))

end Proxy

/-! # Theorems -/

/-- Looking up the inserted key on the mapped (overwrite) form of `dictInsert`. -/
theorem dictLookup_map_self {α : Type} (d : List (String × α)) (k : String) (v : α)
    (hany : d.any (fun kv => kv.1 == k) = true) :
    dictLookup (d.map (fun kv => if kv.1 == k then (k, v) else kv)) k = some v := by
  induction d with
  | nil => simp at hany
  | cons kv rest ih =>
    simp only [List.map_cons]
    cases hk : (kv.1 == k) with
    | true => simp [dictLookup, hk]
    | false =>
      simp only [List.any_cons, hk, Bool.false_or] at hany
      simp only [Bool.false_eq_true, if_false]
      rw [show dictLookup (kv :: rest.map (fun kv => if kv.1 == k then (k, v) else kv)) k
          = if (kv.1 == k) = true then some kv.2
            else dictLookup (rest.map (fun kv => if kv.1 == k then (k, v) else kv)) k from rfl]
      rw [hk]
      simp only [Bool.false_eq_true, if_false]
      exact ih hany

theorem dictLookup_append {α : Type} (d e : List (String × α)) (k : String) :
    dictLookup (d ++ e) k = ((dictLookup d k).or (dictLookup e k)) := by
  induction d with
  | nil => simp [dictLookup]
  | cons kv rest ih =>
    by_cases h : kv.1 == k
    · simp [dictLookup, h]
    · simp only [Bool.not_eq_true] at h
      simp [dictLookup, h, ih]

theorem dictLookup_dictInsert_self {α : Type} (d : List (String × α)) (k : String) (v : α) :
    dictLookup (dictInsert d k v) k = some v := by
  unfold dictInsert
  split
  · rename_i hany
    exact dictLookup_map_self d k v hany
  · rename_i hany
    rw [dictLookup_append]
    have : dictLookup d k = none := by
      induction d with
      | nil => rfl
      | cons kv rest ih =>
        simp only [List.any_cons, Bool.or_eq_true, not_or] at hany
        have hk : (kv.1 == k) = false := by
          cases h : kv.1 == k
          · rfl
          · exact absurd h hany.1
        simp only [dictLookup, hk, if_neg, Bool.false_eq_true, not_false_iff]
        exact ih hany.2
    simp [this, dictLookup]

/-- Every pair of `dictInsert d k v` is either a pair of `d` whose key is not
`k`, or the inserted pair itself. -/
theorem mem_dictInsert {α : Type} {d : List (String × α)} {k : String} {v : α}
    {kv' : String × α} (h : kv' ∈ dictInsert d k v) :
    (kv' ∈ d ∧ (kv'.1 == k) = false) ∨ kv' = (k, v) := by
  unfold dictInsert at h
  split at h
  · rcases List.mem_map.mp h with ⟨kv, hmem, heq⟩
    cases hk : (kv.1 == k) with
    | true =>
      right
      rw [← heq]
      simp [hk]
    | false =>
      left
      rw [← heq]
      simp [hk, hmem]
  · rcases List.mem_append.mp h with h1 | h1
    · left
      refine ⟨h1, ?_⟩
      rename_i hany
      cases hk : (kv'.1 == k) with
      | true => exact absurd (List.any_eq_true.mpr ⟨kv', h1, hk⟩) hany
      | false => rfl
    · right
      simpa using h1

/-! ## String and list lemmas -/

theorem splitChar_headD (sep : Char) (s : List Char) :
    (splitChar sep s).headD [] = s.takeWhile (fun c => !(c == sep)) := by
  induction s with
  | nil => rfl
  | cons c cs ih =>
    by_cases h : c = sep
    · subst h
      simp [splitChar, List.takeWhile_cons]
    · have hb : (c == sep) = false := by simpa using h
      rw [show splitChar sep (c :: cs) = (match splitChar sep cs with
          | t :: ts => (c :: t) :: ts
          | [] => [[c]]) from by simp [splitChar, h]]
      cases hs : splitChar sep cs with
      | nil =>
        have h2 := ih
        rw [hs] at h2
        simp only [List.headD] at h2
        simp [List.takeWhile_cons, hb, ← h2]
      | cons t ts =>
        have h2 := ih
        rw [hs] at h2
        simp only [List.headD] at h2
        simp [List.takeWhile_cons, hb, h2]

theorem modelAfter_not_found (l : List String) (h : "models" ∉ l) :
    Proxy.modelAfter l = none := by
  induction l with
  | nil => rfl
  | cons p ps ih =>
    simp only [List.mem_cons, not_or] at h
    simp only [Proxy.modelAfter]
    rw [if_neg (fun heq => h.1 heq.symm)]
    exact ih h.2

theorem modelAfter_found (pre : List String) (comp : String) (rest : List String)
    (h : "models" ∉ pre) :
    Proxy.modelAfter (pre ++ "models" :: comp :: rest) = some comp := by
  induction pre with
  | nil => simp [Proxy.modelAfter]
  | cons p ps ih =>
    simp only [List.mem_cons, not_or] at h
    simp only [List.cons_append, Proxy.modelAfter]
    rw [if_neg (fun heq => h.1 heq.symm)]
    exact ih h.2

theorem modelAfter_last (pre : List String) (h : "models" ∉ pre) :
    Proxy.modelAfter (pre ++ ["models"]) = none := by
  induction pre with
  | nil => simp [Proxy.modelAfter]
  | cons p ps ih =>
    simp only [List.mem_cons, not_or] at h
    simp only [List.cons_append, Proxy.modelAfter]
    rw [if_neg (fun heq => h.1 heq.symm)]
    exact ih h.2

theorem find?_append_first {α : Type} (p : α → Bool) (l1 l2 : List α) :
    (l1 ++ l2).find? p =
      (match l1.find? p with
       | some x => some x
       | none => l2.find? p) := by
  induction l1 with
  | nil => simp [List.find?]
  | cons a l ih =>
    by_cases h : p a
    · simp [List.find?, h]
    · simp only [Bool.not_eq_true] at h
      simp [List.find?, h, ih]

/-- The implementation's reversed-`find?` scan agrees with the spec's
last-to-first recursion. -/
theorem lastUsage_eq_findUsageRev (items : List Json) :
    Proxy.lastUsageMetadata items = Proxy.findUsageRev items := by
  induction items with
  | nil => rfl
  | cons it rest ih =>
    simp only [Proxy.lastUsageMetadata, ih]
    unfold Proxy.findUsageRev
    rw [List.reverse_cons, find?_append_first]
    cases hr : rest.reverse.find? (fun it => match it with
        | Json.obj fs => (jsonGet fs "usageMetadata").isSome
        | _ => false) with
    | some x =>
      have hx := List.find?_some hr
      cases x with
      | obj fs =>
        simp at hx
        cases hu : jsonGet fs "usageMetadata" with
        | none => rw [hu] at hx; simp at hx
        | some u => simp [hu]
      | null => simp at hx
      | bool b => simp at hx
      | num n => simp at hx
      | str s => simp at hx
      | arr l => simp at hx
    | none =>
      cases it with
      | obj fs =>
        cases hu : jsonGet fs "usageMetadata" with
        | none => simp [List.find?, hu]
        | some u => simp [List.find?, hu]
      | null => simp [List.find?]
      | bool b => simp [List.find?]
      | num n => simp [List.find?]
      | str s => simp [List.find?]
      | arr l => simp [List.find?]

/-! ## Claim theorems -/

/-- **C10.** The gateway's IP check raises HTTP 403 iff the configured
allow-list is non-empty, not equal to `["*"]`, and misses the client IP;
in particular the empty allow-list admits every client IP, exactly like
`["*"]`. -/
theorem checkIpAccess_characterization (allowed : List String) (clientIp : String) :
    (Proxy.checkIpAccessDenied allowed clientIp = true ↔
      allowed ≠ [] ∧ allowed ≠ ["*"] ∧ clientIp ∉ allowed) ∧
    Proxy.checkIpAccessDenied [] clientIp = false ∧
    Proxy.checkIpAccessDenied ["*"] clientIp = false := by
  refine ⟨?_, rfl, rfl⟩
  unfold Proxy.checkIpAccessDenied
  simp [and_assoc, List.isEmpty_iff]

/-- **C9 counterexample.** On a Vertex path, `_extract_model` keeps the
`:action` suffix: the component after `models/` is not truncated at the
first `":"` when `is_gemini` is false, contradicting the claim for Vertex
requests. -/
theorem extractModel_vertex_keeps_action :
    Proxy.extractModel
      "v1/projects/p/locations/us-central1/publishers/google/models/imagen-3.0:predict"
      false = "imagen-3.0:predict" ∧
    ("imagen-3.0:predict" : String) ≠ "imagen-3.0" := by
  exact ⟨rfl, by decide⟩

/-- **C9 amended.** The model extracted for telemetry is the path component
immediately after the first `models` component — truncated at the first
`":"` for Gemini paths but kept whole (including any `:action` suffix) for
Vertex paths — and `"unknown"` when no `models` component exists or when
`models` is the final component. -/
theorem extractModel_characterization (path : String) (g : Bool)
    (pre rest : List String) (comp : String) :
    (pySplit path '/' = pre ++ "models" :: comp :: rest → "models" ∉ pre →
      Proxy.extractModel path true = strTakeWhile comp (fun c => !(c == ':')) ∧
      Proxy.extractModel path false = comp) ∧
    ("models" ∉ pySplit path '/' → Proxy.extractModel path g = "unknown") ∧
    (pySplit path '/' = pre ++ ["models"] → "models" ∉ pre →
      Proxy.extractModel path g = "unknown") := by
  refine ⟨?_, ?_, ?_⟩
  · intro hsplit hpre
    unfold Proxy.extractModel
    rw [hsplit, modelAfter_found pre comp rest hpre]
    refine ⟨?_, rfl⟩
    show beforeChar comp ':' = _
    unfold beforeChar strTakeWhile
    rw [splitChar_headD]
  · intro h
    unfold Proxy.extractModel
    rw [modelAfter_not_found _ h]
  · intro hsplit hpre
    unfold Proxy.extractModel
    rw [hsplit, modelAfter_last pre hpre]

/-- Witness for the amended C9 at concrete paths. -/
theorem extractModel_characterization_witness :
    Proxy.extractModel "v1beta/models/gemini-pro:generateContent" true = "gemini-pro" ∧
    Proxy.extractModel "v1/projects/p/locations/l/models/veo:predict" false = "veo:predict" ∧
    Proxy.extractModel "v1beta/foo" true = "unknown" ∧
    Proxy.extractModel "v1beta/models" false = "unknown" := by
  refine ⟨?_, ?_, ?_, ?_⟩
  · have h := (extractModel_characterization "v1beta/models/gemini-pro:generateContent"
      true ["v1beta"] [] "gemini-pro:generateContent").1 rfl (by decide)
    rw [h.1]
    rfl
  · exact ((extractModel_characterization "v1/projects/p/locations/l/models/veo:predict"
      false ["v1", "projects", "p", "locations", "l"] [] "veo:predict").1 rfl
      (by decide)).2
  · exact (extractModel_characterization "v1beta/foo" true [] [] "x").2.1 (by decide)
  · exact (extractModel_characterization "v1beta/models" false ["v1beta"] [] "x").2.2
      rfl (by decide)

/-- **C7.** Token-usage parsing: when the body parses as a JSON object, the
counts come from its top-level `usageMetadata`; when it parses as a JSON
array, the array is scanned from the last element backward and the first
element containing `usageMetadata` supplies the counts; any input that does
not parse gives all-null counts, and the function is total (it never
raises). -/
theorem parseUsageMetadata_spec (parse : String → Option Json) (text : String) :
    (∀ fs, parse text = some (Json.obj fs) →
      Proxy.parseUsageMetadata parse text =
        Proxy.extractCounts (jsonGet fs "usageMetadata")) ∧
    (∀ items, parse text = some (Json.arr items) →
      Proxy.parseUsageMetadata parse text =
        Proxy.extractCounts (Proxy.lastUsageMetadata items)) ∧
    (parse text = none →
      Proxy.parseUsageMetadata parse text = Proxy.Usage.nulls) := by
  refine ⟨?_, ?_, ?_⟩
  · intro fs h
    unfold Proxy.parseUsageMetadata
    rw [h]
  · intro items h
    unfold Proxy.parseUsageMetadata
    rw [h, lastUsage_eq_findUsageRev]
    cases items with
    | nil => rfl
    | cons a l => rfl
  · intro h
    unfold Proxy.parseUsageMetadata
    rw [h]
    cases hc : strStartsWith (pyStrip text) "[" <;> simp [hc]

/-- Witness for C7 at a concrete parser and inputs. -/
theorem parseUsageMetadata_spec_witness :
    Proxy.parseUsageMetadata
      (fun _ => some (Json.obj [("usageMetadata",
        Json.obj [("promptTokenCount", Json.num 2),
                  ("candidatesTokenCount", Json.num 5),
                  ("totalTokenCount", Json.num 7)])])) "body"
      = ⟨some (Json.num 2), some (Json.num 5), some (Json.num 7)⟩ ∧
    Proxy.parseUsageMetadata (fun _ => none) "this is not json" = Proxy.Usage.nulls := by
  constructor
  · rw [(parseUsageMetadata_spec _ "body").1 _ rfl]
    rfl
  · exact (parseUsageMetadata_spec (fun _ => none) "this is not json").2.2 rfl

/-- **C5 counterexample.** `load_keys` does not reset `_current_index`:
starting from a fresh two-key rotator, one selection moves the cursor to 1;
a reload with identical file content leaves the cursor at 1, and the next
selection returns the second key, not the first element of the new pool. -/
theorem reload_cursor_counterexample :
    ((GeminiRotator.mk ["k1", "k2"] 0).getNextKey.2.reload
        (FileReadResult.content (Json.arr [Json.str "k1", Json.str "k2"]))
        (fun _ => none)).currentIndex = 1 ∧
    ((GeminiRotator.mk ["k1", "k2"] 0).getNextKey.2.reload
        (FileReadResult.content (Json.arr [Json.str "k1", Json.str "k2"]))
        (fun _ => none)).getNextKey.1 = Except.ok (some "k2") := by
  exact ⟨rfl, rfl⟩

/-- **C5 amended.** A reload replaces the pool according to the file
contents, but the rotation cursor is NOT reset to 0: both rotators' reloads
leave `_current_index` exactly as it was before the reload (it is 0 only at
construction), so the next selection continues from the retained cursor
position rather than from the first element. -/
theorem reload_preserves_cursor (file : FileReadResult) (decrypt : Json → Option String)
    (s : GeminiRotator) (files : List VertexFile) (v : VertexRotator) :
    (s.reload file decrypt).currentIndex = s.currentIndex ∧
    (v.reload files).currentIndex = v.currentIndex := by
  constructor
  · unfold GeminiRotator.reload GeminiRotator.loadKeys
    cases file with
    | missing => rfl
    | ioError => rfl
    | content data =>
      cases data with
      | obj fs =>
        cases h : jsonGet fs "encrypted_keys" with
        | none => simp [h]
        | some j => cases j <;> simp [h]
      | null => rfl
      | bool b => rfl
      | num n => rfl
      | str st => rfl
      | arr items => rfl
  · by_cases h : (files.filter (fun f => !(pyContains f.path "gemini_keys"))).isEmpty
    <;> simp [VertexRotator.reload, VertexRotator.loadCredentials, h]

/-- **C2.** LRO pinning: a 200 `predictLongRunning` response remembers its
operation name against the serving credential's project id, and any later
`fetchPredictOperation` POST whose parsed body names that operation — while
a credential with that project id is still in the pool map — is routed to
that credential directly, with the rotator state (hence the round-robin
cursor) untouched. -/
theorem lro_pinning (cache : List (String × String)) (startPath : String)
    (resp : List (String × Json)) (X pid : String)
    (h1 : pyContains startPath "predictLongRunning" = true)
    (h2 : jsonGet resp "name" = some (Json.str X))
    (hX : X ≠ "") :
    dictLookup (Legacy.rememberLro cache startPath 200 (some (Json.obj resp)) pid) X
      = some pid ∧
    (∀ (cache2 : List (String × String)) (rot : Legacy.CredentialRotator)
        (C : VertexCredential) (fetchPath : String) (fbody : List (String × Json)),
      dictLookup cache2 X = some pid →
      pyContains fetchPath "fetchPredictOperation" = true →
      jsonGet fbody "operationName" = some (Json.str X) →
      rot.getCredentialByProjectId pid = some C →
      Legacy.computeTargetProject cache2 fetchPath "POST" (some (Json.obj fbody))
        = some pid ∧
      Legacy.selectCredential
        (Legacy.computeTargetProject cache2 fetchPath "POST" (some (Json.obj fbody)))
        rot = (Except.ok C, rot, some pid)) := by
  constructor
  · unfold Legacy.rememberLro
    rw [h1]
    have ht : jsonTruthy (Json.str X) = true := by
      have hemp : X.isEmpty = false := by
        cases hemp : X.isEmpty
        · rfl
        · exact absurd ((String.isEmpty_iff X).mp hemp) hX
      simp [jsonTruthy, hemp]
    simp only [h2, ht, Bool.and_self, if_true, beq_self_eq_true]
    exact dictLookup_dictInsert_self cache X pid
  · intro cache2 rot C fetchPath fbody hc hf hop hC
    have ht : Legacy.computeTargetProject cache2 fetchPath "POST"
        (some (Json.obj fbody)) = some pid := by
      unfold Legacy.computeTargetProject
      rw [hf]
      simp [hop, hX, hc]
    refine ⟨ht, ?_⟩
    rw [ht]
    unfold Legacy.selectCredential
    simp [hC]

/-- Witness for C2 at a concrete operation, credential and cache. -/
theorem lro_pinning_witness :
    dictLookup (Legacy.rememberLro []
      "v1/projects/a/locations/l/publishers/google/models/veo-3.0:predictLongRunning"
      200 (some (Json.obj [("name", Json.str "projects/999/operations/OP1")])) "proj-9")
      "projects/999/operations/OP1" = some "proj-9" ∧
    Legacy.selectCredential
      (Legacy.computeTargetProject [("projects/999/operations/OP1", "proj-9")]
        "v1/projects/a/locations/l/publishers/google/models/veo-3.0:fetchPredictOperation"
        "POST"
        (some (Json.obj [("operationName", Json.str "projects/999/operations/OP1")])))
      ⟨[⟨"proj-9", "f.json"⟩], [("proj-9", ⟨"proj-9", "f.json"⟩)], 0⟩
      = (Except.ok ⟨"proj-9", "f.json"⟩,
         ⟨[⟨"proj-9", "f.json"⟩], [("proj-9", ⟨"proj-9", "f.json"⟩)], 0⟩,
         some "proj-9") := by
  constructor
  · exact (lro_pinning []
      "v1/projects/a/locations/l/publishers/google/models/veo-3.0:predictLongRunning"
      [("name", Json.str "projects/999/operations/OP1")]
      "projects/999/operations/OP1" "proj-9" rfl rfl (by decide)).1
  · exact ((lro_pinning []
      "v1/projects/a/locations/l/publishers/google/models/veo-3.0:predictLongRunning"
      [("name", Json.str "projects/999/operations/OP1")]
      "projects/999/operations/OP1" "proj-9" rfl rfl (by decide)).2
      [("projects/999/operations/OP1", "proj-9")]
      ⟨[⟨"proj-9", "f.json"⟩], [("proj-9", ⟨"proj-9", "f.json"⟩)], 0⟩
      ⟨"proj-9", "f.json"⟩
      "v1/projects/a/locations/l/publishers/google/models/veo-3.0:fetchPredictOperation"
      [("operationName", Json.str "projects/999/operations/OP1")]
      rfl rfl rfl rfl).2

/-- **C6.** Telemetry non-interference: `record_request` swallows every DB
failure, `_record_stats` is total and always succeeds (absent backend,
token-count parsing and body parsing included), the client-visible gateway
outcome does not depend on the telemetry environment, and the background
recording task of any request succeeds — so no telemetry failure can reach
the client or change an otherwise-successful response. -/
theorem telemetry_non_interference (db : Stats.DbEnv) (t t' : Stats.TelemetryEnv)
    (storeBodies : Bool) (rec : Proxy.AttemptRecord)
    (cfg : Proxy.ServiceSettingsModel) (sec : Proxy.SecurityModel) (clientIp : String)
    (req : Proxy.ClientRequest) (gem : GeminiRotator) (vtx : VertexRotator)
    (clientReady : Bool) (env : Nat → Proxy.AttemptEnv) :
    Stats.recordRequest db = Except.ok () ∧
    Stats.recordStats t storeBodies rec = Except.ok () ∧
    (Stats.handleRequest cfg sec clientIp req gem vtx clientReady env t).1 =
      (Stats.handleRequest cfg sec clientIp req gem vtx clientReady env t').1 ∧
    (Stats.handleRequest cfg sec clientIp req gem vtx clientReady env t).2 =
      Except.ok () := by
  have hrr : ∀ d : Stats.DbEnv, Stats.recordRequest d = Except.ok () := by
    intro d
    unfold Stats.recordRequest
    cases Stats.recordRequestTry d <;> rfl
  have hrs : ∀ (tt : Stats.TelemetryEnv) (sb : Bool) (r : Proxy.AttemptRecord),
      Stats.recordStats tt sb r = Except.ok () := by
    intro tt sb r
    unfold Stats.recordStats
    cases htt : tt.svcPresent <;> simp [hrr]
  refine ⟨hrr db, hrs t storeBodies rec, rfl, ?_⟩
  unfold Stats.handleRequest
  cases h : (Proxy.proxyGateway cfg sec clientIp req gem vtx clientReady env).record with
  | none => simp [h]
  | some r => simp [h, hrs]

/-! ## Round-robin counting lemmas (for C8) -/

theorem modIdx_eq (M i j : Nat) (hM : 0 < M) (hi : i < M) (hj : j < M) :
    (M + j - i) % M = if i ≤ j then j - i else M + j - i := by
  by_cases h : i ≤ j
  · rw [if_pos h]
    have he : M + j - i = (j - i) + M := by omega
    rw [he, Nat.add_mod_right]
    exact Nat.mod_eq_of_lt (by omega)
  · rw [if_neg h]
    exact Nat.mod_eq_of_lt (by omega)

theorem modIdx_succ (M i j : Nat) (hM : 0 < M) (hi : i < M) (hj : j < M) :
    (M + j - ((i + 1) % M)) % M =
      if i = j then M - 1 else ((M + j - i) % M) - 1 := by
  rcases Nat.lt_or_ge (i + 1) M with h | h
  · have hi1 : (i + 1) % M = i + 1 := Nat.mod_eq_of_lt h
    rw [hi1, modIdx_eq M (i + 1) j hM h hj, modIdx_eq M i j hM hi hj]
    split_ifs <;> omega
  · have hiM : i + 1 = M := by omega
    have hi0 : (i + 1) % M = 0 := by rw [hiM, Nat.mod_self]
    rw [hi0, Nat.sub_zero, Nat.add_mod_left, Nat.mod_eq_of_lt hj,
      modIdx_eq M i j hM hi hj]
    split_ifs <;> omega

theorem modTrace_count (M : Nat) :
    ∀ (K i j : Nat), 0 < M → i < M → j < M →
    (modTrace i M K).count j = (K + (M - 1) - ((M + j - i) % M)) / M := by
  intro K
  induction K with
  | zero =>
    intro i j hM hi hj
    have hd : (M + j - i) % M < M := Nat.mod_lt _ hM
    rw [show modTrace i M 0 = [] from rfl]
    rw [List.count_nil]
    rw [Nat.div_eq_of_lt (by omega)]
  | succ K ih =>
    intro i j hM hi hj
    have hi' : (i + 1) % M < M := Nat.mod_lt _ hM
    have hrec := ih ((i + 1) % M) j hM hi' hj
    rw [show modTrace i M (K + 1) = i :: modTrace ((i + 1) % M) M K from rfl]
    rw [List.count_cons, hrec, modIdx_succ M i j hM hi hj]
    by_cases hij : i = j
    · rw [if_pos hij]
      have hb : (i == j) = true := by simp [hij]
      rw [hb]
      have h0 : (M + j - i) % M = 0 := by
        rw [modIdx_eq M i j hM hi hj]
        split_ifs <;> omega
      rw [h0]
      have e1 : K + 1 + (M - 1) - 0 = K + M := by omega
      have e2 : K + (M - 1) - (M - 1) = K := by omega
      rw [e1, e2, if_pos rfl, Nat.add_div_right K hM]
    · rw [if_neg hij]
      have hb : (i == j) = false := by simp [hij]
      rw [hb]
      have hd0 : (M + j - i) % M ≠ 0 := by
        rw [modIdx_eq M i j hM hi hj]
        split_ifs <;> omega
      have hdM : (M + j - i) % M < M := Nat.mod_lt _ hM
      have e1 : K + (M - 1) - ((M + j - i) % M - 1) =
          K + 1 + (M - 1) - ((M + j - i) % M) := by omega
      rw [e1]
      simp

theorem modTrace_count_floor_ceil (M K i j : Nat) (hM : 0 < M) (hi : i < M)
    (hj : j < M) :
    (modTrace i M K).count j = K / M ∨
    (modTrace i M K).count j = (K + M - 1) / M := by
  rw [modTrace_count M K i j hM hi hj]
  have hdM : (M + j - i) % M < M := Nat.mod_lt _ hM
  generalize hd : (M + j - i) % M = d at hdM ⊢
  have h1 : K ≤ K + (M - 1) - d := by omega
  have h2 : K + (M - 1) - d ≤ K + (M - 1) := by omega
  have l1 : K / M ≤ (K + (M - 1) - d) / M := Nat.div_le_div_right h1
  have l2 : (K + (M - 1) - d) / M ≤ (K + (M - 1)) / M := Nat.div_le_div_right h2
  have l3 : (K + (M - 1)) / M ≤ K / M + 1 := by
    have hle : K + (M - 1) ≤ K + M := by omega
    calc (K + (M - 1)) / M ≤ (K + M) / M := Nat.div_le_div_right hle
    _ = K / M + 1 := Nat.add_div_right K hM
  have he : K + M - 1 = K + (M - 1) := by omega
  rw [he]
  generalize (K + (M - 1) - d) / M = c at l1 l2
  generalize K / M = f at l1 l3 ⊢
  generalize (K + (M - 1)) / M = g at l2 l3 ⊢
  omega

/-- `K` consecutive selections read the ideal round-robin trace: the Gemini
rotator. -/
theorem gemini_chosenSlots_eq (s : GeminiRotator) (K : Nat)
    (hi : s.currentIndex < s.keys.length) :
    s.chosenSlots K = modTrace s.currentIndex s.keys.length K := by
  induction K generalizing s with
  | zero => rfl
  | succ K ih =>
    have hne : s.keys.isEmpty = false := by
      cases hk : s.keys with
      | nil => rw [hk] at hi; simp at hi
      | cons a l => rfl
    have hget : s.keys.get? s.currentIndex = some (s.keys.get ⟨s.currentIndex, hi⟩) :=
      List.get?_eq_get hi
    rw [show s.chosenSlots (K + 1)
        = s.currentIndex :: GeminiRotator.chosenSlots (s.getNextKey).2 K from rfl]
    rw [show modTrace s.currentIndex s.keys.length (K + 1)
        = s.currentIndex ::
          modTrace ((s.currentIndex + 1) % s.keys.length) s.keys.length K from rfl]
    have hstep : (s.getNextKey).2 =
        { s with currentIndex := (s.currentIndex + 1) % s.keys.length } := by
      unfold GeminiRotator.getNextKey
      rw [hne]
      simp only [Bool.false_eq_true, if_false, hget]
    rw [hstep]
    have hi2 : (s.currentIndex + 1) % s.keys.length < s.keys.length :=
      Nat.mod_lt _ (by omega)
    exact congrArg _ (ih _ hi2)

/-- `K` consecutive selections read the ideal round-robin trace: the Vertex
rotator. -/
theorem vertex_chosenSlots_eq (s : VertexRotator) (K : Nat)
    (hi : s.currentIndex < s.pool.length) :
    s.chosenSlots K = modTrace s.currentIndex s.pool.length K := by
  induction K generalizing s with
  | zero => rfl
  | succ K ih =>
    have hne : s.pool.isEmpty = false := by
      cases hk : s.pool with
      | nil => rw [hk] at hi; simp at hi
      | cons a l => rfl
    have hget : s.pool.get? s.currentIndex = some (s.pool.get ⟨s.currentIndex, hi⟩) :=
      List.get?_eq_get hi
    rw [show s.chosenSlots (K + 1)
        = s.currentIndex :: VertexRotator.chosenSlots (s.getNextCredential).2 K from rfl]
    rw [show modTrace s.currentIndex s.pool.length (K + 1)
        = s.currentIndex ::
          modTrace ((s.currentIndex + 1) % s.pool.length) s.pool.length K from rfl]
    have hstep : (s.getNextCredential).2 =
        { s with currentIndex := (s.currentIndex + 1) % s.pool.length } := by
      unfold VertexRotator.getNextCredential
      rw [hne]
      simp only [Bool.false_eq_true, if_false, hget]
    rw [hstep]
    have hi2 : (s.currentIndex + 1) % s.pool.length < s.pool.length :=
      Nat.mod_lt _ (by omega)
    exact congrArg _ (ih _ hi2)

/-- **C8.** Rotation fairness: over any `K` consecutive selections from a
rotator whose pool has size `M ≥ 1` (cursor in range, no reloads or
removals in between), each pool slot is chosen exactly `⌊K/M⌋` or `⌈K/M⌉`
times — for the Gemini and the Vertex rotator alike. -/
theorem rotation_fairness (g : GeminiRotator) (v : VertexRotator)
    (K Kv j jv : Nat)
    (hgM : 0 < g.keys.length) (hgi : g.currentIndex < g.keys.length)
    (hgj : j < g.keys.length)
    (hvM : 0 < v.pool.length) (hvi : v.currentIndex < v.pool.length)
    (hvj : jv < v.pool.length) :
    ((g.chosenSlots K).count j = K / g.keys.length ∨
      (g.chosenSlots K).count j = (K + g.keys.length - 1) / g.keys.length) ∧
    ((v.chosenSlots Kv).count jv = Kv / v.pool.length ∨
      (v.chosenSlots Kv).count jv = (Kv + v.pool.length - 1) / v.pool.length) := by
  constructor
  · rw [gemini_chosenSlots_eq g K hgi]
    exact modTrace_count_floor_ceil g.keys.length K g.currentIndex j hgM hgi hgj
  · rw [vertex_chosenSlots_eq v Kv hvi]
    exact modTrace_count_floor_ceil v.pool.length Kv v.currentIndex jv hvM hvi hvj

/-- Witness for C8: a 3-key Gemini pool with cursor 1 over 7 selections and
a 2-credential Vertex pool with cursor 0 over 5 selections. -/
theorem rotation_fairness_witness :
    ((GeminiRotator.mk ["a", "b", "c"] 1).chosenSlots 7).count 0 = 2 ∧
    ((VertexRotator.mk [⟨"pA", "a.json"⟩, ⟨"pB", "b.json"⟩] 0).chosenSlots 5).count 1
      = 2 ∧ (7 : Nat) / 3 = 2 ∧ (5 : Nat) / 2 = 2 ∧ (5 + 2 - 1 : Nat) / 2 = 3 := by
  have h := rotation_fairness (GeminiRotator.mk ["a", "b", "c"] 1)
    (VertexRotator.mk [⟨"pA", "a.json"⟩, ⟨"pB", "b.json"⟩] 0) 7 5 0 1
    (by decide) (by decide) (by decide) (by decide) (by decide) (by decide)
  rcases h with ⟨hg | hg, hv | hv⟩ <;>
    first
      | exact ⟨by rw [hg]; rfl, by rw [hv]; rfl, rfl, rfl, rfl⟩
      | (exact absurd hg (by decide))
      | (exact absurd hv (by decide))

/-! ## Gateway lemmas -/

theorem gatewayStep_calls_le (cfg : Proxy.ServiceSettingsModel)
    (req : Proxy.ClientRequest) (isG : Bool) (provider model : String)
    (action : Option String) (isS : Bool) (n : Nat) (aenv : Proxy.AttemptEnv)
    (ready : Bool) (st : Proxy.GatewayState) :
    (∀ resp rec c sr st',
      Proxy.gatewayStep cfg req isG provider model action isS n aenv ready st
        = .ret resp rec c sr st' → c ≤ 1) ∧
    (∀ c sr st',
      Proxy.gatewayStep cfg req isG provider model action isS n aenv ready st
        = .cont c sr st' → c ≤ 1) := by
  constructor
  · intro resp rec c sr st' h
    unfold Proxy.gatewayStep at h
    repeat' split at h
    all_goals first | (cases h; omega) | (cases h)
  · intro c sr st' h
    unfold Proxy.gatewayStep at h
    repeat' split at h
    all_goals first | (cases h; omega) | (cases h)

theorem gatewayLoop_calls_le (cfg : Proxy.ServiceSettingsModel)
    (req : Proxy.ClientRequest) (isG : Bool) (provider model : String)
    (action : Option String) (isS : Bool) (env : Nat → Proxy.AttemptEnv)
    (ready : Bool) :
    ∀ (fuel attempts calls : Nat) (st : Proxy.GatewayState)
      (sent : List Proxy.SentRequest),
      (Proxy.gatewayLoop cfg req isG provider model action isS env ready
        fuel attempts calls st sent).upstreamCalls ≤ calls + fuel := by
  intro fuel
  induction fuel with
  | zero =>
    intro attempts calls st sent
    simp [Proxy.gatewayLoop]
  | succ fuel ih =>
    intro attempts calls st sent
    rw [show Proxy.gatewayLoop cfg req isG provider model action isS env ready
        (fuel + 1) attempts calls st sent
      = (match Proxy.gatewayStep cfg req isG provider model action isS
            (attempts + 1) (env attempts) ready st with
         | .ret resp rec c sr st' =>
           { response := resp, record := rec, upstreamCalls := calls + c,
             sent := sent ++ sr.toList, attempts := attempts + 1,
             finalState := st' }
         | .cont c sr st' =>
           Proxy.gatewayLoop cfg req isG provider model action isS env ready
             fuel (attempts + 1) (calls + c) st' (sent ++ sr.toList)) from rfl]
    cases hstep : Proxy.gatewayStep cfg req isG provider model action isS
        (attempts + 1) (env attempts) ready st with
    | ret resp rec c sr st' =>
      have hc : c ≤ 1 :=
        (gatewayStep_calls_le cfg req isG provider model action isS
          (attempts + 1) (env attempts) ready st).1 resp rec c sr st' hstep
      simpa using by omega
    | cont c sr st' =>
      have hc : c ≤ 1 :=
        (gatewayStep_calls_le cfg req isG provider model action isS
          (attempts + 1) (env attempts) ready st).2 c sr st' hstep
      have := ih (attempts + 1) (calls + c) st' (sent ++ sr.toList)
      simpa using by omega

theorem gatewayStep_fails_cont (cfg : Proxy.ServiceSettingsModel)
    (req : Proxy.ClientRequest) (isG : Bool) (provider model : String)
    (action : Option String) (isS : Bool) (n : Nat) (aenv : Proxy.AttemptEnv)
    (st : Proxy.GatewayState)
    (hfail : Proxy.attemptFails aenv)
    (hgem : isG = true → Proxy.gemWf st.gem) :
    ∃ c sr st',
      Proxy.gatewayStep cfg req isG provider model action isS n aenv true st
        = .cont c sr st' ∧ (isG = true → Proxy.gemWf st'.gem) := by
  cases isG with
  | true =>
    obtain ⟨hne, hlt, hkeys⟩ := hgem rfl
    have hne' : st.gem.keys.isEmpty = false := by
      cases hk : st.gem.keys with
      | nil => exact absurd hk hne
      | cons a l => rfl
    have hget : st.gem.keys.get? st.gem.currentIndex
        = some (st.gem.keys.get ⟨st.gem.currentIndex, hlt⟩) := List.get?_eq_get hlt
    have hsel : st.gem.getNextKey
        = (Except.ok (some (st.gem.keys.get ⟨st.gem.currentIndex, hlt⟩)),
           { st.gem with currentIndex :=
               (st.gem.currentIndex + 1) % st.gem.keys.length }) := by
      unfold GeminiRotator.getNextKey
      rw [hne', hget]
      simp
    have hkne : (st.gem.keys.get ⟨st.gem.currentIndex, hlt⟩ == "") = false := by
      have hmem := List.get_mem st.gem.keys st.gem.currentIndex hlt
      have := hkeys _ hmem
      simpa using this
    have hwf' : Proxy.gemWf
        { st.gem with currentIndex := (st.gem.currentIndex + 1) % st.gem.keys.length } := by
      refine ⟨hne, ?_, hkeys⟩
      exact Nat.mod_lt _ (by
        cases hk : st.gem.keys with
        | nil => exact absurd hk hne
        | cons a l => simp)
    unfold Proxy.gatewayStep
    rw [if_pos rfl, hsel]
    simp only [hkne, Bool.false_eq_true, if_false, if_pos rfl]
    unfold Proxy.attemptFails at hfail
    cases hu : aenv.upstream with
    | transportError e =>
      exact ⟨_, _, _, rfl, fun _ => hwf'⟩
    | response status rbody =>
      rw [hu] at hfail
      have hf2 : Proxy.retryableStatus status = true := hfail
      dsimp only
      rw [hf2]
      exact ⟨_, _, _, rfl, fun _ => hwf'⟩
  | false =>
    unfold Proxy.gatewayStep
    rw [if_neg (by simp)]
    rcases hv : st.vtx.getNextCredential with ⟨r, vtx'⟩
    cases r with
    | error e =>
      exact ⟨_, _, _, rfl, fun h => absurd h (by simp)⟩
    | ok cred =>
      cases ht : aenv.token with
      | error e =>
        exact ⟨_, _, _, rfl, fun h => absurd h (by simp)⟩
      | ok tok =>
        unfold Proxy.attemptFails at hfail
        cases hu : aenv.upstream with
        | transportError e =>
          exact ⟨_, _, _, rfl, fun h => absurd h (by simp)⟩
        | response status rbody =>
          rw [hu] at hfail
          have hf2 : Proxy.retryableStatus status = true := hfail
          dsimp only
          rw [hf2]
          exact ⟨_, _, _, rfl, fun h => absurd h (by simp)⟩

theorem gatewayLoop_all_fail (cfg : Proxy.ServiceSettingsModel)
    (req : Proxy.ClientRequest) (isG : Bool) (provider model : String)
    (action : Option String) (isS : Bool) (env : Nat → Proxy.AttemptEnv)
    (hfails : ∀ n, Proxy.attemptFails (env n)) :
    ∀ (fuel attempts calls : Nat) (st : Proxy.GatewayState)
      (sent : List Proxy.SentRequest),
      (isG = true → Proxy.gemWf st.gem) →
      (Proxy.gatewayLoop cfg req isG provider model action isS env true
        fuel attempts calls st sent).response =
        .plain 503 "All backends exhausted or unavailable" := by
  intro fuel
  induction fuel with
  | zero =>
    intro attempts calls st sent _
    rfl
  | succ fuel ih =>
    intro attempts calls st sent hst
    obtain ⟨c, sr, st', hstep, hwf⟩ :=
      gatewayStep_fails_cont cfg req isG provider model action isS
        (attempts + 1) (env attempts) st (hfails attempts) hst
    rw [show Proxy.gatewayLoop cfg req isG provider model action isS env true
        (fuel + 1) attempts calls st sent
      = (match Proxy.gatewayStep cfg req isG provider model action isS
            (attempts + 1) (env attempts) true st with
         | .ret resp rec c sr st' =>
           { response := resp, record := rec, upstreamCalls := calls + c,
             sent := sent ++ sr.toList, attempts := attempts + 1,
             finalState := st' }
         | .cont c sr st' =>
           Proxy.gatewayLoop cfg req isG provider model action isS env true
             fuel (attempts + 1) (calls + c) st' (sent ++ sr.toList)) from rfl]
    rw [hstep]
    exact ih (attempts + 1) (calls + c) st' (sent ++ sr.toList) hwf

/-- **C3.** Retry budget: for every client request the number of upstream
network calls is at most `max_retries` (whose default is 10); and when the
service is up, the IP is admitted, the relevant pool is sound, and every
attempt fails retryably (transport error or a 429/403/503 answer), the
gateway returns HTTP 503 with body exactly
`"All backends exhausted or unavailable"`. -/
theorem retry_budget (cfg : Proxy.ServiceSettingsModel) (sec : Proxy.SecurityModel)
    (ip : String) (req : Proxy.ClientRequest) (gem : GeminiRotator)
    (vtx : VertexRotator) (ready : Bool) (env : Nat → Proxy.AttemptEnv) :
    (Proxy.proxyGateway cfg sec ip req gem vtx ready env).upstreamCalls
      ≤ cfg.maxRetries ∧
    Proxy.defaultMaxRetries = 10 ∧
    (ready = true →
      Proxy.checkIpAccessDenied sec.allowedClientIps ip = false →
      (pyContains req.fullPath "projects/" = false → Proxy.gemWf gem) →
      (∀ n, Proxy.attemptFails (env n)) →
      (Proxy.proxyGateway cfg sec ip req gem vtx ready env).response =
        .plain 503 "All backends exhausted or unavailable") := by
  refine ⟨?_, rfl, ?_⟩
  · unfold Proxy.proxyGateway
    cases hd : Proxy.checkIpAccessDenied sec.allowedClientIps ip with
    | true => simp
    | false =>
      simp only [Bool.false_eq_true, if_false]
      have := gatewayLoop_calls_le cfg req (!(pyContains req.fullPath "projects/"))
        (if !(pyContains req.fullPath "projects/") then "gemini" else "vertex")
        (Proxy.extractModel req.fullPath (!(pyContains req.fullPath "projects/")))
        (Proxy.extractAction req.fullPath)
        (Proxy.extractAction req.fullPath == some "streamGenerateContent") env ready
        cfg.maxRetries 0 0
        { gem := gem, vtx := vtx, headers := Proxy.baseHeaders req.headers,
          finalKeyId := "unknown", finalError := none } []
      simpa using this
  · intro hready hip hgem hfails
    subst hready
    unfold Proxy.proxyGateway
    rw [hip]
    simp only [Bool.false_eq_true, if_false]
    apply gatewayLoop_all_fail cfg req (!(pyContains req.fullPath "projects/"))
      _ _ _ _ env hfails
    intro hG
    exact hgem (by simpa using hG)

/-- Witness for C3 at a concrete all-429 Gemini run. -/
theorem retry_budget_witness :
    (Proxy.proxyGateway ⟨3, "g", "v", false⟩ ⟨["*"]⟩ "1.2.3.4"
      ⟨"POST", "v1beta/models/m:generateContent", [], [], "null"⟩
      ⟨["kkk1"], 0⟩ ⟨[], 0⟩ true
      (fun _ => ⟨Except.ok "tok", Proxy.UpstreamResult.response 429 "quota"⟩)).upstreamCalls
      ≤ 3 ∧
    (Proxy.proxyGateway ⟨3, "g", "v", false⟩ ⟨["*"]⟩ "1.2.3.4"
      ⟨"POST", "v1beta/models/m:generateContent", [], [], "null"⟩
      ⟨["kkk1"], 0⟩ ⟨[], 0⟩ true
      (fun _ => ⟨Except.ok "tok", Proxy.UpstreamResult.response 429 "quota"⟩)).response =
      .plain 503 "All backends exhausted or unavailable" := by
  have h := retry_budget ⟨3, "g", "v", false⟩ ⟨["*"]⟩ "1.2.3.4"
    ⟨"POST", "v1beta/models/m:generateContent", [], [], "null"⟩
    ⟨["kkk1"], 0⟩ ⟨[], 0⟩ true
    (fun _ => ⟨Except.ok "tok", Proxy.UpstreamResult.response 429 "quota"⟩)
  refine ⟨h.1, h.2.2 rfl rfl (fun _ => ?_) (fun n => ?_)⟩
  · exact ⟨by decide, by decide, by decide⟩
  · show Proxy.retryableStatus 429 = true
    rfl

/-- **C1 (evaluation at the failing input).** Empty Gemini pool: the
gateway immediately returns 503 `"No Gemini keys available"` after one loop
iteration, zero upstream calls, recording one attempt with status 503 and
`attempt_count` 1 — as the claim states for Gemini. Empty Vertex pool: the
claim fails — `get_next_credential` raises instead of returning a falsy
value, so the `if not cred:` 503 branch in the source is unreachable; the
generic handler retries, all `max_retries = 10` attempts burn (still zero
upstream calls), and the client receives the generic exhaustion 503 with a
single record of `attempt_count` 10. -/
theorem empty_pool_behaviour :
    ((Proxy.proxyGateway ⟨10, "g", "v", false⟩ ⟨["*"]⟩ "1.2.3.4"
      ⟨"POST", "v1beta/models/gemini-pro:generateContent", [], [], "null"⟩
      ⟨[], 0⟩ ⟨[], 0⟩ true
      (fun _ => ⟨Except.ok "tok", Proxy.UpstreamResult.response 200 "null"⟩)).response
      = Proxy.ClientResponse.plain 503 "No Gemini keys available" ∧
     (Proxy.proxyGateway ⟨10, "g", "v", false⟩ ⟨["*"]⟩ "1.2.3.4"
      ⟨"POST", "v1beta/models/gemini-pro:generateContent", [], [], "null"⟩
      ⟨[], 0⟩ ⟨[], 0⟩ true
      (fun _ => ⟨Except.ok "tok", Proxy.UpstreamResult.response 200 "null"⟩)).attempts = 1 ∧
     (Proxy.proxyGateway ⟨10, "g", "v", false⟩ ⟨["*"]⟩ "1.2.3.4"
      ⟨"POST", "v1beta/models/gemini-pro:generateContent", [], [], "null"⟩
      ⟨[], 0⟩ ⟨[], 0⟩ true
      (fun _ => ⟨Except.ok "tok", Proxy.UpstreamResult.response 200 "null"⟩)).upstreamCalls = 0 ∧
     (Proxy.proxyGateway ⟨10, "g", "v", false⟩ ⟨["*"]⟩ "1.2.3.4"
      ⟨"POST", "v1beta/models/gemini-pro:generateContent", [], [], "null"⟩
      ⟨[], 0⟩ ⟨[], 0⟩ true
      (fun _ => ⟨Except.ok "tok", Proxy.UpstreamResult.response 200 "null"⟩)).record
      = some ⟨"gemini", "gemini-pro", "system", 503, some "generateContent", "POST",
              "v1beta/models/gemini-pro:generateContent", 1, "null",
              "No Gemini keys available", true, some "No Gemini keys available"⟩) ∧
    ((Proxy.proxyGateway ⟨10, "g", "v", false⟩ ⟨["*"]⟩ "1.2.3.4"
      ⟨"POST", "v1/projects/x/locations/us/publishers/google/models/veo:predict",
        [], [], "null"⟩
      ⟨["k"], 0⟩ ⟨[], 0⟩ true
      (fun _ => ⟨Except.ok "tok", Proxy.UpstreamResult.response 200 "null"⟩)).response
      = Proxy.ClientResponse.plain 503 "All backends exhausted or unavailable" ∧
     (Proxy.proxyGateway ⟨10, "g", "v", false⟩ ⟨["*"]⟩ "1.2.3.4"
      ⟨"POST", "v1/projects/x/locations/us/publishers/google/models/veo:predict",
        [], [], "null"⟩
      ⟨["k"], 0⟩ ⟨[], 0⟩ true
      (fun _ => ⟨Except.ok "tok", Proxy.UpstreamResult.response 200 "null"⟩)).attempts = 10 ∧
     (Proxy.proxyGateway ⟨10, "g", "v", false⟩ ⟨["*"]⟩ "1.2.3.4"
      ⟨"POST", "v1/projects/x/locations/us/publishers/google/models/veo:predict",
        [], [], "null"⟩
      ⟨["k"], 0⟩ ⟨[], 0⟩ true
      (fun _ => ⟨Except.ok "tok", Proxy.UpstreamResult.response 200 "null"⟩)).upstreamCalls = 0 ∧
     (Proxy.proxyGateway ⟨10, "g", "v", false⟩ ⟨["*"]⟩ "1.2.3.4"
      ⟨"POST", "v1/projects/x/locations/us/publishers/google/models/veo:predict",
        [], [], "null"⟩
      ⟨["k"], 0⟩ ⟨[], 0⟩ true
      (fun _ => ⟨Except.ok "tok", Proxy.UpstreamResult.response 200 "null"⟩)).record
      = some ⟨"vertex", "veo:predict", "unknown", 503, some "predict", "POST",
              "v1/projects/x/locations/us/publishers/google/models/veo:predict", 10,
              "null", "All backends exhausted or unavailable", true,
              some "Vertex Credential pool is empty"⟩) := by
  exact ⟨⟨rfl, rfl, rfl, rfl⟩, ⟨rfl, rfl, rfl, rfl⟩⟩

/-! ## Header-hygiene lemmas (for C4) -/

theorem headersOk_base (env : Nat → Proxy.AttemptEnv) (isG : Bool)
    (hs : List (String × String)) :
    Proxy.headersOk env isG (Proxy.baseHeaders hs) := by
  intro kv hmem
  obtain ⟨hin, hpred⟩ := List.mem_filter.mp hmem
  have hal : pyLower kv.1 ∈ Proxy.ALLOWED_HEADERS :=
    List.mem_of_elem_eq_true hpred
  refine ⟨Or.inl hal, ?_⟩
  intro hbad
  rw [hbad] at hal
  exact absurd hal (by decide)

theorem headersOk_insert_auth (env : Nat → Proxy.AttemptEnv) (isG : Bool)
    (hs : List (String × String)) (tok pid : String) (n : Nat)
    (hOk : Proxy.headersOk env isG hs) (hisG : isG = false)
    (htok : (env n).token = Except.ok tok) :
    Proxy.headersOk env isG
      (dictInsert (dictInsert hs "Authorization" ("Bearer " ++ tok))
        "X-Goog-User-Project" pid) := by
  intro kv hmem
  rcases mem_dictInsert hmem with ⟨hm1, _⟩ | heq
  · rcases mem_dictInsert hm1 with ⟨hm2, _⟩ | heq2
    · exact hOk kv hm2
    · subst heq2
      exact ⟨Or.inr (Or.inl rfl), fun _ => ⟨hisG, n, tok, htok, rfl⟩⟩
  · subst heq
    refine ⟨Or.inr (Or.inr rfl), ?_⟩
    intro hbad
    have hne : pyLower "X-Goog-User-Project" ≠ "authorization" := by decide
    exact absurd hbad hne

theorem hygienic_of_headersOk (env : Nat → Proxy.AttemptEnv) (isG : Bool)
    (hs : List (String × String)) (hOk : Proxy.headersOk env isG hs) :
    ∀ kv ∈ hs, Proxy.hygienicPair env isG kv := by
  intro kv hmem
  obtain ⟨h1, h2⟩ := hOk kv hmem
  refine ⟨?_, ?_, h2⟩
  · rcases h1 with h | h | h
    · exact List.mem_append.mpr (Or.inl h)
    · rw [h]; decide
    · rw [h]; decide
  · rcases h1 with h | h | h
    · intro hbad
      have hdis : ∀ x ∈ Proxy.ALLOWED_HEADERS, x ∉ Proxy.forbiddenHeaders := by decide
      exact hdis _ h hbad
    · rw [h]; decide
    · rw [h]; decide

theorem gatewayStep_headers (cfg : Proxy.ServiceSettingsModel)
    (req : Proxy.ClientRequest) (isG : Bool) (provider model : String)
    (action : Option String) (isS : Bool) (env : Nat → Proxy.AttemptEnv)
    (ord n : Nat) (ready : Bool) (st : Proxy.GatewayState)
    (hOk : Proxy.headersOk env isG st.headers) :
    (∀ q ∈ (Proxy.gatewayStep cfg req isG provider model action isS ord (env n)
        ready st).sentOf.toList,
      ∀ kv ∈ q.headers, Proxy.hygienicPair env isG kv) ∧
    Proxy.headersOk env isG
      (Proxy.gatewayStep cfg req isG provider model action isS ord (env n)
        ready st).stateOf.headers := by
  cases isG with
  | true =>
    unfold Proxy.gatewayStep
    rw [if_pos rfl]
    rcases hg : st.gem.getNextKey with ⟨r, gem'⟩
    cases r with
    | error e =>
      exact ⟨fun q hq => absurd hq (List.not_mem_nil q), hOk⟩
    | ok apiKey =>
      cases apiKey with
      | none =>
        exact ⟨fun q hq => absurd hq (List.not_mem_nil q), hOk⟩
      | some k =>
        cases hk : (k == "") with
        | true =>
          simp only [hk]
          rw [if_pos trivial]
          exact ⟨fun q hq => absurd hq (List.not_mem_nil q), hOk⟩
        | false =>
          simp only [hk, Bool.false_eq_true, if_false]
          cases ready with
          | false =>
            simp only [Bool.false_eq_true, if_false]
            exact ⟨fun q hq => absurd hq (List.not_mem_nil q), hOk⟩
          | true =>
            rw [if_pos rfl]
            cases hu : (env n).upstream with
            | transportError e =>
              refine ⟨?_, hOk⟩
              intro q hq kv hkv
              rw [List.mem_singleton.mp hq] at hkv
              exact hygienic_of_headersOk env true st.headers hOk kv hkv
            | response status rbody =>
              cases hr : Proxy.retryableStatus status with
              | true =>
                simp only [hr]
                rw [if_pos trivial]
                refine ⟨?_, hOk⟩
                intro q hq kv hkv
                rw [List.mem_singleton.mp hq] at hkv
                exact hygienic_of_headersOk env true st.headers hOk kv hkv
              | false =>
                simp only [hr, Bool.false_eq_true, if_false]
                refine ⟨?_, hOk⟩
                intro q hq kv hkv
                rw [List.mem_singleton.mp hq] at hkv
                exact hygienic_of_headersOk env true st.headers hOk kv hkv
  | false =>
    unfold Proxy.gatewayStep
    rw [if_neg (by simp)]
    rcases hv : st.vtx.getNextCredential with ⟨r, vtx'⟩
    cases r with
    | error e =>
      exact ⟨fun q hq => absurd hq (List.not_mem_nil q), hOk⟩
    | ok cred =>
      cases ht : (env n).token with
      | error e =>
        exact ⟨fun q hq => absurd hq (List.not_mem_nil q), hOk⟩
      | ok tok =>
        have hOk' := headersOk_insert_auth env false st.headers tok cred.projectId n
          hOk rfl ht
        cases ready with
        | false =>
          dsimp only
          simp only [Bool.false_eq_true, if_false]
          exact ⟨fun q hq => absurd hq (List.not_mem_nil q), hOk'⟩
        | true =>
          dsimp only
          rw [if_pos rfl]
          cases hu : (env n).upstream with
          | transportError e =>
            refine ⟨?_, hOk'⟩
            intro q hq kv hkv
            rw [List.mem_singleton.mp hq] at hkv
            exact hygienic_of_headersOk env false _ hOk' kv hkv
          | response status rbody =>
            cases hr : Proxy.retryableStatus status with
            | true =>
              simp only [hr]
              rw [if_pos trivial]
              refine ⟨?_, hOk'⟩
              intro q hq kv hkv
              rw [List.mem_singleton.mp hq] at hkv
              exact hygienic_of_headersOk env false _ hOk' kv hkv
            | false =>
              simp only [hr, Bool.false_eq_true, if_false]
              refine ⟨?_, hOk'⟩
              intro q hq kv hkv
              rw [List.mem_singleton.mp hq] at hkv
              exact hygienic_of_headersOk env false _ hOk' kv hkv

theorem gatewayLoop_sent_hygienic (cfg : Proxy.ServiceSettingsModel)
    (req : Proxy.ClientRequest) (isG : Bool) (provider model : String)
    (action : Option String) (isS : Bool) (env : Nat → Proxy.AttemptEnv)
    (ready : Bool) :
    ∀ (fuel attempts calls : Nat) (st : Proxy.GatewayState)
      (sent : List Proxy.SentRequest),
      Proxy.headersOk env isG st.headers →
      (∀ q ∈ sent, ∀ kv ∈ q.headers, Proxy.hygienicPair env isG kv) →
      ∀ q ∈ (Proxy.gatewayLoop cfg req isG provider model action isS env ready
        fuel attempts calls st sent).sent,
      ∀ kv ∈ q.headers, Proxy.hygienicPair env isG kv := by
  intro fuel
  induction fuel with
  | zero =>
    intro attempts calls st sent _ hsent
    exact hsent
  | succ fuel ih =>
    intro attempts calls st sent hOk hsent
    have hstep := gatewayStep_headers cfg req isG provider model action isS env
      (attempts + 1) attempts ready st hOk
    rw [show Proxy.gatewayLoop cfg req isG provider model action isS env ready
        (fuel + 1) attempts calls st sent
      = (match Proxy.gatewayStep cfg req isG provider model action isS
            (attempts + 1) (env attempts) ready st with
         | .ret resp rec c sr st' =>
           { response := resp, record := rec, upstreamCalls := calls + c,
             sent := sent ++ sr.toList, attempts := attempts + 1,
             finalState := st' }
         | .cont c sr st' =>
           Proxy.gatewayLoop cfg req isG provider model action isS env ready
             fuel (attempts + 1) (calls + c) st' (sent ++ sr.toList)) from rfl]
    cases hs : Proxy.gatewayStep cfg req isG provider model action isS
        (attempts + 1) (env attempts) ready st with
    | ret resp rec c sr st' =>
      rw [hs] at hstep
      intro q hq kv hkv
      rcases List.mem_append.mp hq with h | h
      · exact hsent q h kv hkv
      · exact hstep.1 q h kv hkv
    | cont c sr st' =>
      rw [hs] at hstep
      refine ih (attempts + 1) (calls + c) st' (sent ++ sr.toList) hstep.2 ?_
      intro q hq kv hkv
      rcases List.mem_append.mp hq with h | h
      · exact hsent q h kv hkv
      · exact hstep.1 q h kv hkv

/-- **C4.** Header hygiene: every header of every request the gateway sends
upstream has its (lower-cased) name inside the allow-list ∪
{`authorization`, `x-goog-user-project`} and outside
{`host`, `content-length`, `transfer-encoding`, `x-goog-api-key`}; and any
`Authorization` header is the proxy's own `Bearer` token obtained from the
token environment on a Vertex request — the inbound `Authorization` header
is never forwarded. -/
theorem header_hygiene (cfg : Proxy.ServiceSettingsModel) (sec : Proxy.SecurityModel)
    (ip : String) (req : Proxy.ClientRequest) (gem : GeminiRotator)
    (vtx : VertexRotator) (ready : Bool) (env : Nat → Proxy.AttemptEnv) :
    ∀ q ∈ (Proxy.proxyGateway cfg sec ip req gem vtx ready env).sent,
    ∀ kv ∈ q.headers,
      Proxy.hygienicPair env (!(pyContains req.fullPath "projects/")) kv := by
  unfold Proxy.proxyGateway
  cases hd : Proxy.checkIpAccessDenied sec.allowedClientIps ip with
  | true =>
    intro q hq
    simp at hq
  | false =>
    simp only [Bool.false_eq_true, if_false]
    exact gatewayLoop_sent_hygienic cfg req (!(pyContains req.fullPath "projects/"))
      _ _ _ _ env ready cfg.maxRetries 0 0 _ []
      (headersOk_base env _ req.headers) (by intro q hq; cases hq)

/-- Witness for C4: a concrete Gemini run forwards `content-type` and drops
the inbound `Authorization` header; the forwarded pair is hygienic. -/
theorem header_hygiene_witness :
    Proxy.hygienicPair (fun _ => ⟨Except.ok "tok", Proxy.UpstreamResult.response 200 "null"⟩)
      true ("content-type", "application/json") ∧
    (Proxy.proxyGateway ⟨1, "g", "v", false⟩ ⟨["*"]⟩ "1.2.3.4"
      ⟨"POST", "v1beta/models/m:generateContent",
        [("content-type", "application/json"), ("Authorization", "Bearer client-secret")],
        [], "null"⟩
      ⟨["AAAAAAAA1234"], 0⟩ ⟨[], 0⟩ true
      (fun _ => ⟨Except.ok "tok", Proxy.UpstreamResult.response 200 "null"⟩)).sent
      = [⟨"POST", "g/v1beta/models/m:generateContent",
          [("content-type", "application/json")], [("key", "AAAAAAAA1234")], "null"⟩] := by
  constructor
  · have h := header_hygiene ⟨1, "g", "v", false⟩ ⟨["*"]⟩ "1.2.3.4"
      ⟨"POST", "v1beta/models/m:generateContent",
        [("content-type", "application/json"), ("Authorization", "Bearer client-secret")],
        [], "null"⟩
      ⟨["AAAAAAAA1234"], 0⟩ ⟨[], 0⟩ true
      (fun _ => ⟨Except.ok "tok", Proxy.UpstreamResult.response 200 "null"⟩)
    have hsent : (Proxy.proxyGateway ⟨1, "g", "v", false⟩ ⟨["*"]⟩ "1.2.3.4"
      ⟨"POST", "v1beta/models/m:generateContent",
        [("content-type", "application/json"), ("Authorization", "Bearer client-secret")],
        [], "null"⟩
      ⟨["AAAAAAAA1234"], 0⟩ ⟨[], 0⟩ true
      (fun _ => ⟨Except.ok "tok", Proxy.UpstreamResult.response 200 "null"⟩)).sent
      = [⟨"POST", "g/v1beta/models/m:generateContent",
          [("content-type", "application/json")], [("key", "AAAAAAAA1234")], "null"⟩] := rfl
    exact h _ (by rw [hsent]; exact List.mem_singleton.mpr rfl) _
      (List.mem_singleton.mpr rfl)
  · rfl

end Orchestrator
